import Mathlib

/-!
# Verification of `colorcal.py`

Shallow embedding of the ink-coverage / print-cost calculator in
`src/colorcal.py`.  Arithmetic is modelled over `ℚ` (exact rationals in
place of IEEE floats); NumPy's NaN — which arises exactly when `np.mean`
is taken over an empty selection — is modelled as `Option.none`, and every
arithmetic operation propagates it, as NaN does.  Python's
`round(x, 2)` (banker's rounding to two decimals) is modelled by
`round2`.  A decoded image is a flat list of BGR pixels (OpenCV's channel
order); the 2-D shape of the array is irrelevant to every per-pixel map
and mean taken by the code.
-/

namespace Colorcal

/-- A pixel as stored by `cv2.imread`: channel order B, G, R, each a byte
value `0..255` (we carry plain naturals; decoded images only ever hold
values `≤ 255`). -/
structure Pixel where
  b : ℕ
  g : ℕ
  r : ℕ
deriving Repr, DecidableEq

/-- The epsilon guard `1e-10` from lines 57–59 of the source. -/
def eps : ℚ := 1 / 10000000000

/-- Python's `round` to an integer: round half to even (banker's
rounding), on exact rationals. -/
def pyRound (x : ℚ) : ℤ :=
  let f : ℤ := ⌊x⌋
  if x - f < 1/2 then f
  else if (1:ℚ)/2 < x - f then f + 1
  else if 2 ∣ f then f else f + 1

/-- Python's `round(x, 2)`: round to two decimal places, half to even. -/
def round2 (x : ℚ) : ℚ := (pyRound (x * 100) : ℚ) / 100

/-- `np.mean` of a list of rationals (meaningful only on nonempty lists;
the callers below wrap the empty case into `Option.none`, NumPy's NaN). -/
def qmean (l : List ℚ) : ℚ := l.sum / l.length

/-- Line 56: `K = 1 - np.max(bgr, axis=2)` with `bgr = image/255`. -/
def kVal (p : Pixel) : ℚ := 1 - (max p.b (max p.g p.r) : ℕ) / 255

/-- Line 57: `C = (1 - bgr[..., 2] - K) / (1 - K + 1e-10)`
(`bgr[..., 2]` is the red channel). -/
def cVal (p : Pixel) : ℚ := (1 - (p.r : ℚ) / 255 - kVal p) / (1 - kVal p + eps)

/-- Line 58: `M = (1 - bgr[..., 1] - K) / (1 - K + 1e-10)` (green). -/
def mVal (p : Pixel) : ℚ := (1 - (p.g : ℚ) / 255 - kVal p) / (1 - kVal p + eps)

/-- Line 59: `Y = (1 - bgr[..., 0] - K) / (1 - K + 1e-10)` (blue). -/
def yVal (p : Pixel) : ℚ := (1 - (p.b : ℚ) / 255 - kVal p) / (1 - kVal p + eps)

/-- Lines 62–63: `round(np.mean(channel[channel > 0]) * 100, 2)`.
`channel[channel > 0]` keeps only the strictly positive per-pixel values;
when that selection is empty, `np.mean` returns NaN (`none` here). -/
def ink_percentage (channel : List ℚ) : Option ℚ :=
  let pos := channel.filter (fun v => decide (0 < v))
  if pos.isEmpty then none
  else some (round2 (qmean pos * 100))

/-- The value of `calculate_cmyk_coverage` on a successfully decoded
image: the four percentage values carried (as strings in the source) in
the returned dict.  Each field is `none` when the corresponding float is
NaN. -/
structure CoverageResult where
  cyan : Option ℚ
  magenta : Option ℚ
  yellow : Option ℚ
  black : Option ℚ
deriving Repr, DecidableEq

/-- Lines 54–70 of `calculate_cmyk_coverage`, after a successful decode:
per-pixel C/M/Y/K values, `ink_percentage` for C, M, Y, and the
unconditional `round(np.mean(K) * 100, 2)` for K (NaN only when the pixel
list is empty). -/
def cmyk_of_image (img : List Pixel) : CoverageResult :=
  { cyan := ink_percentage (img.map cVal)
    magenta := ink_percentage (img.map mVal)
    yellow := ink_percentage (img.map yVal)
    black := if img.isEmpty then none
             else some (round2 (qmean (img.map kVal) * 100)) }

/-- Lines 49–70: `calculate_cmyk_coverage` including the decode step.
`cv2.imread` is abstracted as the `Option (List Pixel)` argument: `none`
when the bytes cannot be decoded (line 51, `image is None`), in which
case the function returns `None`. -/
def calculate_cmyk_coverage (decoded : Option (List Pixel)) :
    Option CoverageResult :=
  match decoded with
  | none => none
  | some img => some (cmyk_of_image img)

/-- A per-channel quadruple (the dicts `INK_USAGE_PER_M2` and
`ink_prices`, keyed Cyan/Magenta/Yellow/Black). -/
structure ChannelVals where
  cyan : ℚ
  magenta : ℚ
  yellow : ℚ
  black : ℚ
deriving Repr, DecidableEq

/-- NaN-propagating addition on modelled floats. -/
def nAdd : Option ℚ → Option ℚ → Option ℚ
  | some a, some b => some (a + b)
  | _, _ => none

/-- Line 73: `print_area = (print_width / 1000) * (print_height / 1000)`. -/
def print_area (w h : ℚ) : ℚ := (w / 1000) * (h / 1000)

/-- Lines 74–77: one summand of `total_ink_cost` for one colour:
`((float(ink_coverage[color].strip('%')) / 100) * print_area
  * ink_usage_per_m2[color]) * ink_prices[color]`.
Parsing the formatted percentage string recovers exactly the rounded
value `ink_percentage` produced (`float(repr(x))` round-trips), or NaN
from the string `"nan%"`. -/
def channel_ink_cost (cov : Option ℚ) (area usage price : ℚ) : Option ℚ :=
  cov.map (fun c => c / 100 * area * usage * price)

/-- Lines 74–77: `total_ink_cost`, the sum over the four colours. -/
def total_ink_cost (w h : ℚ) (cov : CoverageResult)
    (usage prices : ChannelVals) : Option ℚ :=
  let area := print_area w h
  nAdd (nAdd (nAdd (channel_ink_cost cov.cyan area usage.cyan prices.cyan)
                   (channel_ink_cost cov.magenta area usage.magenta prices.magenta))
             (channel_ink_cost cov.yellow area usage.yellow prices.yellow))
       (channel_ink_cost cov.black area usage.black prices.black)

/-- Line 78: `total_cost = total_ink_cost + paper_cost`. -/
def total_cost (w h : ℚ) (cov : CoverageResult)
    (usage prices : ChannelVals) (paper : ℚ) : Option ℚ :=
  (total_ink_cost w h cov usage prices).map (· + paper)

/-- Line 79: `final_price = total_cost * (1 + markup)`. -/
def final_price (w h : ℚ) (cov : CoverageResult)
    (usage prices : ChannelVals) (paper markup : ℚ) : Option ℚ :=
  (total_cost w h cov usage prices paper).map (· * (1 + markup))

/-- The numeric amounts carried by the dict `calculate_print_cost`
returns (each formatted into a currency string in the source). -/
structure CostBreakdown where
  inkCost : Option ℚ
  paperCost : ℚ
  totalCost : Option ℚ
  finalPrice : Option ℚ
deriving Repr, DecidableEq

/-- Lines 72–85: `calculate_print_cost`.  Note line 82: the paper cost is
interpolated into its display string with no `round` call, while the
other three amounts go through `round(·, 2)`. -/
def calculate_print_cost (w h : ℚ) (cov : CoverageResult)
    (usage prices : ChannelVals) (paper markup : ℚ) : CostBreakdown :=
  { inkCost := (total_ink_cost w h cov usage prices).map round2
    paperCost := paper
    totalCost := (total_cost w h cov usage prices paper).map round2
    finalPrice := (final_price w h cov usage prices paper markup).map round2 }

/-- What the `if uploaded_file:` branch of the script (lines 87–108)
renders for one upload: either the error message (line 108) alone, or the
full coverage dict and the full pricing dict (lines 98–106). -/
inductive MainOutput
  | error
  | results (coverage : CoverageResult) (pricing : CostBreakdown)
deriving Repr, DecidableEq

/-- Lines 96–108: compute coverage; a `None` result (falsy) shows only
the error message, a dict result (truthy: it always has 4 entries) shows
the coverage and then the pricing computed from it. -/
def process_upload (decoded : Option (List Pixel)) (w h : ℚ)
    (usage prices : ChannelVals) (paper markup : ℚ) : MainOutput :=
  match calculate_cmyk_coverage decoded with
  | none => MainOutput.error
  | some cov =>
      MainOutput.results cov (calculate_print_cost w h cov usage prices paper markup)

/-- Shorthand for an all-numeric (NaN-free) coverage result, the shape
a successfully analysed image with ink in every channel produces. -/
def covOf (c m y k : ℚ) : CoverageResult :=
  ⟨some c, some m, some y, some k⟩

/-- All four entries of a per-channel table are non-negative (the spec's
standing assumption on usage rates and prices). -/
def NonnegCV (v : ChannelVals) : Prop :=
  0 ≤ v.cyan ∧ 0 ≤ v.magenta ∧ 0 ≤ v.yellow ∧ 0 ≤ v.black

/-- Selector for the three filtered channels C, M, Y. -/
inductive CMY
  | cy
  | ma
  | ye
deriving Repr, DecidableEq

/-- The per-pixel value of a filtered channel. -/
def cmyVal : CMY → Pixel → ℚ
  | CMY.cy => cVal
  | CMY.ma => mVal
  | CMY.ye => yVal

/-- The field of `CoverageResult` holding a filtered channel. -/
def cmyField : CMY → CoverageResult → Option ℚ
  | CMY.cy => CoverageResult.cyan
  | CMY.ma => CoverageResult.magenta
  | CMY.ye => CoverageResult.yellow

/-- The strictly positive per-pixel values of a channel across an image:
NumPy's `channel[channel > 0]`. -/
def posVals (ch : CMY) (img : List Pixel) : List ℚ :=
  (img.map (cmyVal ch)).filter (fun v => decide (0 < v))

/-- The pre-rounding mean a filtered channel's coverage is computed
from. -/
def preMean (ch : CMY) (img : List Pixel) : ℚ := qmean (posVals ch img)

/-- Written from the spec's words, for comparison with `ink_percentage`:
the full-precision per-channel mean over the strictly positive values,
as a percentage, with no rounding (`none` again standing for the
empty-selection NaN). -/
def spec_fullPrecisionPercent (channel : List ℚ) : Option ℚ :=
  let pos := channel.filter (fun v => decide (0 < v))
  if pos.isEmpty then none
  else some (qmean pos * 100)

/-- Written from the spec's words: `K = 1 - max(R, G, B)` on channel
values normalized to `[0,1]`, in R, G, B order. -/
def spec_blackLevel (R G B : ℚ) : ℚ := 1 - max R (max G B)

/-- Written from the spec's words: the sum over the four channels of
`(coveragePercent / 100) * printAreaM2 * inkUsagePerM2[channel]
  * inkPricePerUnit[channel]`. -/
def spec_totalInkCost (c m y k area : ℚ) (usage prices : ChannelVals) : ℚ :=
  c / 100 * area * usage.cyan * prices.cyan
    + m / 100 * area * usage.magenta * prices.magenta
    + y / 100 * area * usage.yellow * prices.yellow
    + k / 100 * area * usage.black * prices.black

/-- Written from the spec's words: `totalCost = totalInkCost
+ paperCostPerSheet`. -/
def spec_totalCost (c m y k area : ℚ) (usage prices : ChannelVals)
    (paper : ℚ) : ℚ :=
  spec_totalInkCost c m y k area usage prices + paper

/-- Written from the spec's words: `finalPrice = totalCost
* (1 + markupFraction)`. -/
def spec_finalPrice (c m y k area : ℚ) (usage prices : ChannelVals)
    (paper markup : ℚ) : ℚ :=
  spec_totalCost c m y k area usage prices paper * (1 + markup)

/-- A rational is a two-decimal value: an integer number of
hundredths. -/
def twoDecimal (x : ℚ) : Prop := ∃ n : ℤ, x = (n : ℚ) / 100

/-! ## Helper lemmas -/

theorem eps_pos : 0 < eps := by norm_num [eps]

theorem round2_zero : round2 0 = 0 := by
  simp [round2, pyRound]

theorem qmean_pos (l : List ℚ) (hl : l ≠ []) (hp : ∀ v ∈ l, 0 < v) :
    0 < qmean l := by
  have hs : 0 < l.sum := List.sum_pos l hp hl
  have hn : 0 < (l.length : ℚ) := by
    exact_mod_cast List.length_pos.mpr hl
  exact div_pos hs hn

theorem total_ink_cost_covOf (w h c m y k : ℚ) (usage prices : ChannelVals) :
    total_ink_cost w h (covOf c m y k) usage prices =
      some (c / 100 * print_area w h * usage.cyan * prices.cyan
        + m / 100 * print_area w h * usage.magenta * prices.magenta
        + y / 100 * print_area w h * usage.yellow * prices.yellow
        + k / 100 * print_area w h * usage.black * prices.black) := by
  simp [total_ink_cost, covOf, nAdd, channel_ink_cost]

theorem total_cost_covOf (w h c m y k paper : ℚ) (usage prices : ChannelVals) :
    total_cost w h (covOf c m y k) usage prices paper =
      some (c / 100 * print_area w h * usage.cyan * prices.cyan
        + m / 100 * print_area w h * usage.magenta * prices.magenta
        + y / 100 * print_area w h * usage.yellow * prices.yellow
        + k / 100 * print_area w h * usage.black * prices.black + paper) := by
  rw [total_cost, total_ink_cost_covOf]
  rfl

theorem final_price_covOf (w h c m y k paper markup : ℚ)
    (usage prices : ChannelVals) :
    final_price w h (covOf c m y k) usage prices paper markup =
      some ((c / 100 * print_area w h * usage.cyan * prices.cyan
        + m / 100 * print_area w h * usage.magenta * prices.magenta
        + y / 100 * print_area w h * usage.yellow * prices.yellow
        + k / 100 * print_area w h * usage.black * prices.black + paper)
          * (1 + markup)) := by
  rw [final_price, total_cost_covOf]
  rfl

theorem kVal_eq_spec (p : Pixel) :
    kVal p = spec_blackLevel ((p.r : ℚ) / 255) ((p.g : ℚ) / 255) ((p.b : ℚ) / 255) := by
  have hmono : Monotone (fun x : ℚ => x / 255) :=
    monotone_id.div_const (by norm_num)
  have hmax : ∀ a b : ℚ, max a b / 255 = max (a / 255) (b / 255) :=
    fun a b => (hmono.map_max).symm ▸ rfl
  rw [kVal, spec_blackLevel]
  push_cast
  rw [hmax, hmax]
  congr 1
  simp [max_comm, max_left_comm, max_assoc]

theorem map_kVal_eq_spec (img : List Pixel) :
    img.map kVal = img.map (fun p =>
      spec_blackLevel ((p.r : ℚ) / 255) ((p.g : ℚ) / 255) ((p.b : ℚ) / 255)) :=
  List.map_congr_left (fun p _ => kVal_eq_spec p)

theorem ink_percentage_pos_case (channel : List ℚ)
    (h : channel.filter (fun v => decide (0 < v)) ≠ []) :
    ink_percentage channel =
      some (round2 (qmean (channel.filter (fun v => decide (0 < v))) * 100)) := by
  rw [ink_percentage]
  simp [List.isEmpty_iff, h]

theorem round2_eq_int_div (x : ℚ) : ∃ n : ℤ, round2 x = (n : ℚ) / 100 :=
  ⟨pyRound (x * 100), rfl⟩

theorem floor_big : ⌊(100000000000000 : ℚ) / 10000000001⌋ = 9999 := by
  rw [Int.floor_eq_iff]
  constructor <;> norm_num

theorem cmyk_white : cmyk_of_image [⟨255, 255, 255⟩] = ⟨none, none, none, some 0⟩ := by
  simp [cmyk_of_image, ink_percentage, qmean, cVal, mVal, yVal, kVal, eps, round2, pyRound]

theorem cmyk_cyanpix : cmyk_of_image [⟨255, 255, 0⟩] = ⟨some 100, none, none, some 0⟩ := by
  simp [cmyk_of_image, ink_percentage, qmean, cVal, mVal, yVal, kVal, eps, round2,
    pyRound, floor_big]
  norm_num [Int.fract, floor_big]

/-! ## The claims -/

/-- C1 (code bug): on a pure white image (every pixel RGB =
(255,255,255)) the C, M, Y per-pixel values are all exactly 0, so
`channel[channel > 0]` is empty and `np.mean` of it is NaN (`none` in
this model) — the code reports `nan%` for C, M, Y instead of the 0%
the spec requires; only K comes out as 0. -/
theorem claim_C1_white_image_nan :
    calculate_cmyk_coverage (some [⟨255, 255, 255⟩]) =
      some ⟨none, none, none, some 0⟩ := by
  simp [calculate_cmyk_coverage, cmyk_white]

/-- C2 (code bug): on a pure cyan image (every pixel RGB = (0,255,255),
stored BGR as (255,255,0)) the code reports C = 100% and K = 0% as the
claim says, but M and Y come out as NaN (`none`), not the claimed 0%,
again because the positive selection for those channels is empty. -/
theorem claim_C2_cyan_image_eval :
    calculate_cmyk_coverage (some [⟨255, 255, 0⟩]) =
      some ⟨some 100, none, none, some 0⟩ := by
  simp [calculate_cmyk_coverage, cmyk_cyanpix]

/-- C3 (counterexample): the coverage value the cost calculation
consumes is NOT the full-precision per-channel mean: on a one-pixel
pure cyan image the stored cyan coverage is exactly 100 (rounded to two
decimals), while the full-precision mean percentage is
10^12 / (10^10 + 1) < 100. -/
theorem claim_C3_counterexample :
    (cmyk_of_image [⟨255, 255, 0⟩]).cyan ≠
      spec_fullPrecisionPercent ([⟨255, 255, 0⟩].map cVal) := by
  simp [cmyk_cyanpix, spec_fullPrecisionPercent, qmean, cVal, kVal, eps]
  norm_num

/-- C3 (amended): rounding to 2 decimals is applied when the coverage
string is produced, before cost computation — the value consumed by the
cost calculation is the 2-decimal-rounded mean recovered from the
formatted percent string (the round-trip recovers it exactly), not the
full-precision mean; the cost stage then rounds its own outputs again. -/
theorem claim_C3_amended_rounded_consumed (channel : List ℚ)
    (img : List Pixel) (w h paper markup : ℚ) (usage prices : ChannelVals) :
    ink_percentage channel = (spec_fullPrecisionPercent channel).map round2
  ∧ process_upload (some img) w h usage prices paper markup =
      MainOutput.results (cmyk_of_image img)
        (calculate_print_cost w h (cmyk_of_image img) usage prices paper markup) := by
  constructor
  · rw [ink_percentage, spec_fullPrecisionPercent]
    by_cases hc : (channel.filter (fun v => decide (0 < v))).isEmpty = true <;>
      simp [hc]
  · simp [process_upload, calculate_cmyk_coverage]

/-- C4 (counterexample): the paper cost amount is NOT rounded to two
decimals: with paper cost 2.857 the returned paper-cost amount is 2.857
itself, which differs from its two-decimal rounding 2.86. -/
theorem claim_C4_counterexample :
    (calculate_print_cost 210 297 (covOf 10 10 10 10) ⟨1, 1, 1, 1⟩ ⟨1, 1, 1, 1⟩
        (2857 / 1000) (3 / 10)).paperCost ≠
      round2 ((calculate_print_cost 210 297 (covOf 10 10 10 10) ⟨1, 1, 1, 1⟩ ⟨1, 1, 1, 1⟩
        (2857 / 1000) (3 / 10)).paperCost) := by
  have hfl : ⌊(2857 : ℚ) / 10⌋ = 285 := by
    rw [Int.floor_eq_iff]
    constructor <;> norm_num
  simp [calculate_print_cost, round2, pyRound]
  norm_num [Int.fract, hfl]

/-- C4 (amended): inkCost, totalCost and finalPrice are two-decimal
values (an integer number of hundredths) in the returned breakdown, but
paperCost is returned exactly as configured, with no rounding. -/
theorem claim_C4_amended_rounding (w h c m y k paper markup : ℚ)
    (usage prices : ChannelVals) :
    twoDecimal ((calculate_print_cost w h (covOf c m y k) usage prices paper markup).inkCost.getD 0)
  ∧ twoDecimal ((calculate_print_cost w h (covOf c m y k) usage prices paper markup).totalCost.getD 0)
  ∧ twoDecimal ((calculate_print_cost w h (covOf c m y k) usage prices paper markup).finalPrice.getD 0)
  ∧ (calculate_print_cost w h (covOf c m y k) usage prices paper markup).paperCost = paper := by
  refine ⟨?_, ?_, ?_, rfl⟩ <;>
    simp [twoDecimal, calculate_print_cost, total_ink_cost_covOf, total_cost_covOf,
      final_price_covOf, round2] <;>
    exact ⟨_, rfl⟩

/-- C5: on numeric coverage and a pre-validated config, the cost stage
computes exactly the spec formulas: the print area, the 4-channel ink
cost sum, the total with paper, and the markup multiplication, for any
markup fraction in the 0 to 5 (0% to 500%) range. -/
theorem claim_C5_cost_formulas (w h c m y k paper markup : ℚ)
    (usage prices : ChannelVals) (hm0 : 0 ≤ markup) (hm5 : markup ≤ 5) :
    print_area w h = w / 1000 * (h / 1000)
  ∧ total_ink_cost w h (covOf c m y k) usage prices =
      some (spec_totalInkCost c m y k (print_area w h) usage prices)
  ∧ total_cost w h (covOf c m y k) usage prices paper =
      some (spec_totalCost c m y k (print_area w h) usage prices paper)
  ∧ final_price w h (covOf c m y k) usage prices paper markup =
      some (spec_finalPrice c m y k (print_area w h) usage prices paper markup) := by
  refine ⟨rfl, ?_, ?_, ?_⟩
  · rw [total_ink_cost_covOf]
    rfl
  · rw [total_cost_covOf]
    rfl
  · rw [final_price_covOf]
    rfl

/-- C5 witness: the spec worked example (A4 sheet, 10% coverage in each
channel, markup 30%). -/
theorem claim_C5_cost_formulas_witness :
    ((0 : ℚ) ≤ 3 / 10 ∧ (3 / 10 : ℚ) ≤ 5)
  ∧ (print_area 210 297 = 210 / 1000 * (297 / 1000)
  ∧ total_ink_cost 210 297 (covOf 10 10 10 10)
        ⟨5529 / 100, 5529 / 100, 5529 / 100, 5529 / 100⟩ ⟨1, 1, 1, 1⟩ =
      some (spec_totalInkCost 10 10 10 10 (print_area 210 297)
        ⟨5529 / 100, 5529 / 100, 5529 / 100, 5529 / 100⟩ ⟨1, 1, 1, 1⟩)
  ∧ total_cost 210 297 (covOf 10 10 10 10)
        ⟨5529 / 100, 5529 / 100, 5529 / 100, 5529 / 100⟩ ⟨1, 1, 1, 1⟩ (14 / 5) =
      some (spec_totalCost 10 10 10 10 (print_area 210 297)
        ⟨5529 / 100, 5529 / 100, 5529 / 100, 5529 / 100⟩ ⟨1, 1, 1, 1⟩ (14 / 5))
  ∧ final_price 210 297 (covOf 10 10 10 10)
        ⟨5529 / 100, 5529 / 100, 5529 / 100, 5529 / 100⟩ ⟨1, 1, 1, 1⟩ (14 / 5) (3 / 10) =
      some (spec_finalPrice 10 10 10 10 (print_area 210 297)
        ⟨5529 / 100, 5529 / 100, 5529 / 100, 5529 / 100⟩ ⟨1, 1, 1, 1⟩ (14 / 5) (3 / 10))) :=
  ⟨⟨by norm_num, by norm_num⟩,
   claim_C5_cost_formulas 210 297 10 10 10 10 (14 / 5) (3 / 10)
     ⟨5529 / 100, 5529 / 100, 5529 / 100, 5529 / 100⟩ ⟨1, 1, 1, 1⟩
     (by norm_num) (by norm_num)⟩

/-- C6: the reported K coverage of a nonempty decoded image is the
unconditional mean over all pixels of the per-pixel black level
`1 - max(R, G, B)` (channel values normalized to [0,1]), as a
percentage rounded to 2 decimals — no filtering to positive values. -/
theorem claim_C6_black_unconditional_mean (img : List Pixel) (h : img ≠ []) :
    (cmyk_of_image img).black =
      some (round2 (qmean (img.map (fun p =>
        spec_blackLevel ((p.r : ℚ) / 255) ((p.g : ℚ) / 255) ((p.b : ℚ) / 255))) * 100)) := by
  simp only [cmyk_of_image]
  rw [if_neg (by simpa using h), map_kVal_eq_spec]

/-- C6 witness: a one-pixel pure black image. -/
theorem claim_C6_black_witness :
    ([⟨0, 0, 0⟩] : List Pixel) ≠ []
  ∧ (cmyk_of_image [⟨0, 0, 0⟩]).black =
      some (round2 (qmean (([⟨0, 0, 0⟩] : List Pixel).map (fun p =>
        spec_blackLevel ((p.r : ℚ) / 255) ((p.g : ℚ) / 255) ((p.b : ℚ) / 255))) * 100)) :=
  ⟨by simp, claim_C6_black_unconditional_mean [⟨0, 0, 0⟩] (by simp)⟩

/-- C7: for every pixel the denominator `1 - K + ε` of the C, M, Y
formulas is strictly positive — it equals `max(B,G,R)/255 + ε` — so all
three divisions are well-defined, including on a pure black pixel where
K = 1. -/
theorem claim_C7_denominator_pos (p : Pixel) : 0 < 1 - kVal p + eps := by
  have h : 1 - kVal p + eps = ((max p.b (max p.g p.r) : ℕ) : ℚ) / 255 + eps := by
    rw [kVal]
    ring
  rw [h]
  have h0 : (0 : ℚ) ≤ ((max p.b (max p.g p.r) : ℕ) : ℚ) / 255 := by positivity
  linarith [eps_pos]

/-- C8: with all configuration quantities non-negative and fixed,
raising coverage percentages (componentwise, in particular raising any
single channel with the others unchanged) never decreases the ink cost,
the total cost, or the final price. -/
theorem claim_C8_cost_monotone (w h paper markup c m y k c2 m2 y2 k2 : ℚ)
    (usage prices : ChannelVals)
    (hw : 0 ≤ w) (hh : 0 ≤ h) (hu : NonnegCV usage) (hp : NonnegCV prices)
    (hpaper : 0 ≤ paper) (hmk : 0 ≤ markup)
    (hc : c ≤ c2) (hm : m ≤ m2) (hy : y ≤ y2) (hk : k ≤ k2) :
    (total_ink_cost w h (covOf c m y k) usage prices).getD 0
      ≤ (total_ink_cost w h (covOf c2 m2 y2 k2) usage prices).getD 0
  ∧ (total_cost w h (covOf c m y k) usage prices paper).getD 0
      ≤ (total_cost w h (covOf c2 m2 y2 k2) usage prices paper).getD 0
  ∧ (final_price w h (covOf c m y k) usage prices paper markup).getD 0
      ≤ (final_price w h (covOf c2 m2 y2 k2) usage prices paper markup).getD 0 := by
  obtain ⟨hu1, hu2, hu3, hu4⟩ := hu
  obtain ⟨hp1, hp2, hp3, hp4⟩ := hp
  have harea : 0 ≤ print_area w h := by
    rw [print_area]
    positivity
  have hink : c / 100 * print_area w h * usage.cyan * prices.cyan
        + m / 100 * print_area w h * usage.magenta * prices.magenta
        + y / 100 * print_area w h * usage.yellow * prices.yellow
        + k / 100 * print_area w h * usage.black * prices.black
      ≤ c2 / 100 * print_area w h * usage.cyan * prices.cyan
        + m2 / 100 * print_area w h * usage.magenta * prices.magenta
        + y2 / 100 * print_area w h * usage.yellow * prices.yellow
        + k2 / 100 * print_area w h * usage.black * prices.black := by
    gcongr
  rw [total_ink_cost_covOf, total_ink_cost_covOf, total_cost_covOf, total_cost_covOf,
    final_price_covOf, final_price_covOf]
  simp only [Option.getD_some]
  refine ⟨hink, by linarith, ?_⟩
  have h1mk : (0 : ℚ) ≤ 1 + markup := by linarith
  apply mul_le_mul_of_nonneg_right (by linarith) h1mk

/-- C8 witness: a unit square metre sheet, unit rates and prices, and a
coverage raise from 0 to 1 in every channel. -/
theorem claim_C8_cost_monotone_witness :
    ((0 : ℚ) ≤ 1000 ∧ (0 : ℚ) ≤ 1000 ∧ NonnegCV ⟨1, 1, 1, 1⟩ ∧ NonnegCV ⟨1, 1, 1, 1⟩
      ∧ (0 : ℚ) ≤ 1 ∧ (0 : ℚ) ≤ 1 / 2
      ∧ (0 : ℚ) ≤ 1 ∧ (0 : ℚ) ≤ 1 ∧ (0 : ℚ) ≤ 1 ∧ (0 : ℚ) ≤ 1)
  ∧ ((total_ink_cost 1000 1000 (covOf 0 0 0 0) ⟨1, 1, 1, 1⟩ ⟨1, 1, 1, 1⟩).getD 0
      ≤ (total_ink_cost 1000 1000 (covOf 1 1 1 1) ⟨1, 1, 1, 1⟩ ⟨1, 1, 1, 1⟩).getD 0
  ∧ (total_cost 1000 1000 (covOf 0 0 0 0) ⟨1, 1, 1, 1⟩ ⟨1, 1, 1, 1⟩ 1).getD 0
      ≤ (total_cost 1000 1000 (covOf 1 1 1 1) ⟨1, 1, 1, 1⟩ ⟨1, 1, 1, 1⟩ 1).getD 0
  ∧ (final_price 1000 1000 (covOf 0 0 0 0) ⟨1, 1, 1, 1⟩ ⟨1, 1, 1, 1⟩ 1 (1 / 2)).getD 0
      ≤ (final_price 1000 1000 (covOf 1 1 1 1) ⟨1, 1, 1, 1⟩ ⟨1, 1, 1, 1⟩ 1 (1 / 2)).getD 0) :=
  ⟨⟨by norm_num, by norm_num, by norm_num [NonnegCV], by norm_num [NonnegCV],
    by norm_num, by norm_num, by norm_num, by norm_num, by norm_num, by norm_num⟩,
   claim_C8_cost_monotone 1000 1000 1 (1 / 2) 0 0 0 0 1 1 1 1 ⟨1, 1, 1, 1⟩ ⟨1, 1, 1, 1⟩
     (by norm_num) (by norm_num) (by norm_num [NonnegCV]) (by norm_num [NonnegCV])
     (by norm_num) (by norm_num) (by norm_num) (by norm_num) (by norm_num) (by norm_num)⟩

/-- C9: the upload branch shows the error message exactly when decoding
failed, and otherwise shows the full coverage result together with the
full cost breakdown computed from it — never a mixture. -/
theorem claim_C9_all_or_nothing (d : Option (List Pixel)) (w h paper markup : ℚ)
    (usage prices : ChannelVals) :
    (process_upload d w h usage prices paper markup = MainOutput.error ↔ d = none)
  ∧ process_upload d w h usage prices paper markup =
      (match d with
       | none => MainOutput.error
       | some img =>
           MainOutput.results (cmyk_of_image img)
             (calculate_print_cost w h (cmyk_of_image img) usage prices paper markup)) := by
  cases d <;> simp [process_upload, calculate_cmyk_coverage]

/-- C10: whenever a C, M or Y channel has at least one strictly
positive per-pixel value, the pre-rounding mean for that channel (taken
over only the strictly positive values) is strictly positive, and the
reported value for the channel is exactly its two-decimal rounding
(times 100), so a reported 0.00% can only come from rounding a positive
mean down, never from the mean being 0. -/
theorem claim_C10_positive_mean (ch : CMY) (img : List Pixel)
    (h : ∃ p ∈ img, 0 < cmyVal ch p) :
    0 < preMean ch img
  ∧ cmyField ch (cmyk_of_image img) = some (round2 (preMean ch img * 100)) := by
  obtain ⟨p, hp, hpos⟩ := h
  have hmem : cmyVal ch p ∈ posVals ch img := by
    rw [posVals]
    exact List.mem_filter.mpr ⟨List.mem_map_of_mem _ hp, by simpa using hpos⟩
  have hne : posVals ch img ≠ [] := List.ne_nil_of_mem hmem
  have hposall : ∀ v ∈ posVals ch img, 0 < v := by
    intro v hv
    have := (List.mem_filter.mp hv).2
    simpa using this
  refine ⟨qmean_pos _ hne hposall, ?_⟩
  cases ch <;>
    simp only [cmyField, cmyk_of_image, preMean] <;>
    rw [ink_percentage_pos_case _ (by simpa [posVals] using hne)] <;>
    simp [posVals, cmyVal]

/-- C10 witness: the cyan channel of a one-pixel pure cyan image. -/
theorem claim_C10_positive_mean_witness :
    (∃ p ∈ ([⟨255, 255, 0⟩] : List Pixel), 0 < cmyVal CMY.cy p)
  ∧ (0 < preMean CMY.cy [⟨255, 255, 0⟩]
  ∧ cmyField CMY.cy (cmyk_of_image [⟨255, 255, 0⟩]) =
      some (round2 (preMean CMY.cy [⟨255, 255, 0⟩] * 100))) :=
  ⟨⟨⟨255, 255, 0⟩, by simp, by norm_num [cmyVal, cVal, kVal, eps, Nat.max_def]⟩,
   claim_C10_positive_mean CMY.cy [⟨255, 255, 0⟩]
     ⟨⟨255, 255, 0⟩, by simp, by norm_num [cmyVal, cVal, kVal, eps, Nat.max_def]⟩⟩

end Colorcal
